import Mathlib

/-!
Verification of the stream-lifecycle core of the solicit HTTP/2 endpoint
(src/src/http/flow): stream state management (`StreamManager`, streammanager.rs),
the frame validator (utils.rs), the per-frame handlers (handlers.rs) and the
priority/dependency tree (`PriorityManager`, prioritymanager.rs).

The embedding mirrors the Rust source:
machine integers (u32/u8) become `Nat` (the flow code only compares, never
overflows), `HashMap` becomes an association list with insert-replace
semantics, `HashSet` becomes a duplicate-free list, `VecDeque` becomes a
list (front = head).  A Rust panic (indexing a `HashMap` at a missing key,
`Option::unwrap` on `None`) is modelled by returning `none`; recursion whose
termination depends on the heap shape (`update_tree_depths`) takes explicit
fuel and returns `none` when the fuel runs out.
-/

set_option maxRecDepth 20000

/-- The seven stream states, from streamstate.rs (`enum StreamStates`). -/
inductive StreamStates where
  | Idle
  | Open
  | Closed
  | ReservedLocal
  | ReservedRemote
  | HalfClosedLocal
  | HalfClosedRemote
deriving DecidableEq, Repr

/-- Modelled from the spec: the `StreamStatus` record used by streammanager.rs
and handlers.rs is imported from the flow module root (`super::{StreamStates,
StreamStatus}`), which is absent from src/ (src/src/http/flow/mod.rs declares
only `streamstate`); the variant in streamstate.rs lacks the `is_reserved` bit
the handlers use.  Spec section 3 gives the attributes: `state`,
`expects_continuation`, `should_end`, `is_reserved` (the optional
`priority_link` is never read by the flow handlers and is omitted).  Defaults
follow `StreamStatus::new` in streamstate.rs (Idle, all flags false). -/
structure StreamStatus where
  state : StreamStates
  expects_continuation : Bool
  should_end : Bool
  is_reserved : Bool
deriving DecidableEq, Repr

def StreamStatus.new : StreamStatus :=
  { state := StreamStates.Idle
    expects_continuation := false
    should_end := false
    is_reserved := false }

def StreamStatus.set_state (st : StreamStatus) (s : StreamStates) : StreamStatus :=
  { st with state := s }

def StreamStatus.set_continue (st : StreamStatus) (b : Bool) : StreamStatus :=
  { st with expects_continuation := b }

def StreamStatus.set_end (st : StreamStatus) (b : Bool) : StreamStatus :=
  { st with should_end := b }

def StreamStatus.set_reserved (st : StreamStatus) (b : Bool) : StreamStatus :=
  { st with is_reserved := b }

/-- Modelled from the spec: the `Flags` enum used by handlers.rs
(`Flags::EndStream`, `Flags::EndHeaders`) comes from the flow module root,
absent from src/.  Spec section 6 gives END_STREAM = 0x1 and END_HEADERS = 0x4,
and the frame module's `is_set` idiom (continuationframe.rs) is
`(flags & bitmask) != 0`. -/
inductive Flags where
  | EndStream
  | EndHeaders
deriving DecidableEq, Repr

def Flags.bitmask : Flags → Nat
  | Flags.EndStream => 0x1
  | Flags.EndHeaders => 0x4

def Flags.is_set (fl : Flags) (flag : Nat) : Bool :=
  (flag &&& fl.bitmask) != 0

/-- The raw frame header `(length, type, flags, stream_id)` of frames.rs;
the payload is never inspected by the flow code and is omitted. -/
structure RawFrame where
  length : Nat
  frame_type : Nat
  flags : Nat
  stream_id : Nat
deriving DecidableEq, Repr

/-- Association-list lookup, modelling `HashMap::get` / `get_mut`. -/
def alistFind {α : Type} (l : List (Nat × α)) (k : Nat) : Option α :=
  match l with
  | [] => none
  | (k', v) :: t => if k' = k then some v else alistFind t k

/-- Association-list insert with replacement, modelling `HashMap::insert`. -/
def alistInsert {α : Type} (l : List (Nat × α)) (k : Nat) (v : α) : List (Nat × α) :=
  match l with
  | [] => [(k, v)]
  | (k', v') :: t => if k' = k then (k, v) :: t else (k', v') :: alistInsert t k v

/-- Pointwise update of the value stored at a key (no-op when absent),
modelling an in-place mutation through `get_mut`. -/
def alistModify {α : Type} (l : List (Nat × α)) (k : Nat) (g : α → α) : List (Nat × α) :=
  match l with
  | [] => []
  | (k', v) :: t => if k' = k then (k', g v) :: t else (k', v) :: alistModify t k g

/-- Association-list removal, modelling `HashMap::remove`. -/
def alistErase {α : Type} (l : List (Nat × α)) (k : Nat) : List (Nat × α) :=
  match l with
  | [] => []
  | (k', v) :: t => if k' = k then t else (k', v) :: alistErase t k

/-- The connection-level stream table of streammanager.rs (`struct StreamManager`). -/
structure StreamManager where
  last_server_id : Nat
  last_client_id : Nat
  max_concurrent_streams : Nat
  streams : List (Nat × StreamStatus)
  is_server : Bool
deriving DecidableEq, Repr

def StreamManager.new (max_streams : Nat) (is_server : Bool) : StreamManager :=
  { last_server_id := 0
    last_client_id := 0
    max_concurrent_streams := max_streams
    streams := []
    is_server := is_server }

def StreamManager.get_stream_status (sm : StreamManager) (stream_id : Nat) :
    Option StreamStatus :=
  alistFind sm.streams stream_id

/-- `StreamManager::set_state`: updates the state of a stream, silently doing
nothing when the id is absent (the source matches on the `Option`). -/
def StreamManager.set_state (sm : StreamManager) (stream_id : Nat) (state : StreamStates) :
    StreamManager :=
  { sm with streams := alistModify sm.streams stream_id (fun st => st.set_state state) }

/-- `StreamManager::check_valid_open_request` (streammanager.rs lines 100-128),
including the source's bitwise `stream_id & 2 == 1` test in the server-receiving
branch. -/
def StreamManager.check_valid_open_request (sm : StreamManager) (stream_id : Nat)
    (receiving : Bool) : Bool :=
  match receiving with
  | true =>
    if sm.is_server = true ∧ sm.last_client_id < stream_id ∧ stream_id &&& 2 = 1 then true
    else if sm.is_server = false ∧ sm.last_server_id < stream_id ∧ stream_id % 2 = 0 then true
    else false
  | false =>
    if sm.is_server = true ∧ sm.last_server_id < stream_id ∧ stream_id % 2 = 0 then true
    else if sm.is_server = false ∧ sm.last_client_id < stream_id ∧ stream_id % 2 = 1 then true
    else false

/-- `StreamManager::open_idle`: inserts a fresh `Idle` status and records the
id in its parity class when the open request is valid. -/
def StreamManager.open_idle (sm : StreamManager) (receiving : Bool) (stream_id : Nat) :
    StreamManager :=
  if sm.check_valid_open_request stream_id receiving then
    let sm' := { sm with streams := alistInsert sm.streams stream_id StreamStatus.new }
    if stream_id % 2 = 0 then { sm' with last_server_id := stream_id }
    else { sm' with last_client_id := stream_id }
  else sm

/-- `StreamManager::open` (the name `open` is a Lean keyword): opens a stream,
creating it if absent.  The source then indexes `self.streams[&stream_id]`,
which panics when `open_idle` declined to insert; the panic is `none`. -/
def StreamManager.open_stream (sm : StreamManager) (stream_id : Nat) (receiving : Bool) :
    Option StreamManager :=
  let not_set := (sm.get_stream_status stream_id).isNone
  let sm1 := if not_set then sm.open_idle receiving stream_id else sm
  match sm1.get_stream_status stream_id with
  | none => none
  | some st =>
    if st.state = StreamStates.Idle then some (sm1.set_state stream_id StreamStates.Open)
    else some sm1

def StreamManager.close (sm : StreamManager) (stream_id : Nat) : StreamManager :=
  sm.set_state stream_id StreamStates.Closed

/-- `check_continue` (utils.rs lines 48-70). -/
def check_continue (sm : StreamManager) (f : RawFrame) : Bool :=
  match sm.get_stream_status f.stream_id with
  | none => false
  | some status =>
    match status.expects_continuation with
    | true => if f.frame_type ≠ 0x9 then false else true
    | false => if f.frame_type = 0x9 then false else true

/-- `check_idle` (utils.rs lines 98-109); Rust match guards fall through, so the
chain of conditions is in source order. -/
def check_idle (receiving : Bool) (f : RawFrame) : Bool :=
  if f.frame_type = 0x1 then true
  else if f.frame_type = 0x3 ∧ receiving = false then true
  else if f.frame_type = 0x5 then true
  else if f.frame_type = 0x9 then true
  else if f.frame_type = 0x20 then true
  else false

/-- `check_reserved_local` (utils.rs lines 120-134). -/
def check_reserved_local (receiving : Bool) (f : RawFrame) : Bool :=
  if f.frame_type = 0x1 ∧ receiving = false then true
  else if f.frame_type = 0x9 ∧ receiving = false then true
  else if f.frame_type = 0x3 then true
  else if f.frame_type = 0x20 then true
  else if f.frame_type = 0x8 then true
  else false

/-- `check_reserved_remote` (utils.rs lines 143-155). -/
def check_reserved_remote (receiving : Bool) (f : RawFrame) : Bool :=
  if f.frame_type = 0x1 ∧ receiving = true then true
  else if f.frame_type = 0x9 ∧ receiving = true then true
  else if f.frame_type = 0x3 then true
  else if f.frame_type = 0x20 then true
  else if f.frame_type = 0x8 then true
  else false

/-- `check_open` (utils.rs lines 166-179). -/
def check_open (receiving : Bool) (f : RawFrame) : Bool :=
  if f.frame_type = 0x0 then true
  else if f.frame_type = 0x3 then true
  else if f.frame_type = 0x9 then true
  else false

/-- `check_half_closed_local` (utils.rs lines 187-200); the wildcard arm is
`true` ("Can Recv any frame"), so every frame passes. -/
def check_half_closed_local (receiving : Bool) (f : RawFrame) : Bool :=
  if f.frame_type = 0x0 ∧ receiving = true then true
  else if f.frame_type = 0x9 then true
  else if f.frame_type = 0x3 then true
  else if f.frame_type = 0x20 then true
  else if f.frame_type = 0x8 ∧ receiving = false then true
  else true

/-- `check_half_closed_remote` (utils.rs lines 212-225). -/
def check_half_closed_remote (receiving : Bool) (f : RawFrame) : Bool :=
  if f.frame_type = 0x0 ∧ receiving = false then true
  else if f.frame_type = 0x9 then true
  else if f.frame_type = 0x3 then true
  else if f.frame_type = 0x20 then true
  else if f.frame_type = 0x8 ∧ receiving = true then true
  else false

/-- `check_closed` (utils.rs lines 247-278). -/
def check_closed (receiving : Bool) (f : RawFrame) : Bool :=
  if f.frame_type = 0x20 then true
  else if f.frame_type = 0x3 ∧ receiving = false then true
  else false

/-- `check_state` (utils.rs lines 74-87). -/
def check_state (receiving : Bool) (state : StreamStates) (f : RawFrame) : Bool :=
  match state with
  | StreamStates.Idle => check_idle receiving f
  | StreamStates.Open => check_open receiving f
  | StreamStates.Closed => check_closed receiving f
  | StreamStates.ReservedLocal => check_reserved_local receiving f
  | StreamStates.ReservedRemote => check_reserved_remote receiving f
  | StreamStates.HalfClosedLocal => check_half_closed_local receiving f
  | StreamStates.HalfClosedRemote => check_half_closed_remote receiving f

/-- `check_valid_frame` (utils.rs lines 10-43): HEADERS passes unconditionally
("handled by header handler"), PUSH_PROMISE runs the open-request check, and
everything else runs the continuation gate; then the per-state whitelist. -/
def check_valid_frame (sm : StreamManager) (f : RawFrame) (receiving : Bool) : Bool :=
  let valid_so_far :=
    if f.frame_type = 0x1 then true
    else if f.frame_type = 0x5 then sm.check_valid_open_request f.stream_id receiving
    else check_continue sm f
  let state :=
    match sm.get_stream_status f.stream_id with
    | none => StreamStates.Idle
    | some status => status.state
  if valid_so_far then check_state receiving state f else false

/-- Writes a fully computed status back at a key, modelling the in-place
mutations performed through the `get_mut` borrow in the handlers. -/
def StreamManager.writeStatus (sm : StreamManager) (stream_id : Nat) (st : StreamStatus) :
    StreamManager :=
  { sm with streams := alistModify sm.streams stream_id (fun _ => st) }

/-- The sequence of mutations `handle_header` (handlers.rs lines 30-85) applies
to the borrowed status: the END_HEADERS block, then the END_STREAM block. -/
def handle_header_status (receiving : Bool) (flag : Nat) (status : StreamStatus) :
    StreamStatus :=
  let status :=
    if Flags.EndHeaders.is_set flag then
      (match status.state, receiving with
       | StreamStates.ReservedLocal, false => status.set_state StreamStates.HalfClosedRemote
       | StreamStates.ReservedRemote, true => status.set_state StreamStates.HalfClosedLocal
       | _, _ => status).set_continue false
    else status.set_continue true
  if Flags.EndStream.is_set flag then
    let status := status.set_end true
    match status.state with
    | StreamStates.Open =>
      if receiving then status.set_state StreamStates.HalfClosedRemote
      else status.set_state StreamStates.HalfClosedLocal
    | StreamStates.HalfClosedRemote =>
      if status.expects_continuation = false ∧ status.should_end = true then
        status.set_state StreamStates.Closed
      else status
    | StreamStates.HalfClosedLocal =>
      if status.expects_continuation = false ∧ status.should_end = true then
        status.set_state StreamStates.Closed
      else status
    | _ => status
  else status

/-- `handle_header` (handlers.rs lines 12-86); the `.unwrap()` on the status
after the forced open is the `none` case. -/
def handle_header (sm : StreamManager) (receiving : Bool) (f : RawFrame) :
    Option StreamManager :=
  let state :=
    match sm.get_stream_status f.stream_id with
    | none => StreamStates.Idle
    | some status => status.state
  let opened :=
    if state = StreamStates.Idle then sm.open_stream f.stream_id receiving else some sm
  match opened with
  | none => none
  | some sm1 =>
    match sm1.get_stream_status f.stream_id with
    | none => none
    | some status =>
      some (sm1.writeStatus f.stream_id (handle_header_status receiving f.flags status))

/-- The mutations `handle_push_promise` (handlers.rs lines 108-121) applies to
the borrowed, freshly inserted status. -/
def handle_push_promise_status (receiving : Bool) (flag : Nat) (status : StreamStatus) :
    StreamStatus :=
  let status := status.set_reserved true
  if Flags.EndHeaders.is_set flag then
    (if receiving then status.set_state StreamStates.ReservedRemote
     else status.set_state StreamStates.ReservedLocal).set_continue false
  else status.set_continue true

/-- `handle_push_promise` (handlers.rs lines 95-127). -/
def handle_push_promise (sm : StreamManager) (receiving : Bool) (f : RawFrame) :
    Option StreamManager :=
  let exists_ := (sm.get_stream_status f.stream_id).isSome
  if exists_ = false then
    let sm1 := sm.open_idle receiving f.stream_id
    match sm1.get_stream_status f.stream_id with
    | none => none
    | some status =>
      some (sm1.writeStatus f.stream_id (handle_push_promise_status receiving f.flags status))
  else some sm

/-- The mutations `handle_continuation` (handlers.rs lines 140-170) applies to
the borrowed status when END_HEADERS is set. -/
def handle_continuation_status (receiving : Bool) (status : StreamStatus) : StreamStatus :=
  let status := status.set_continue false
  let status :=
    match status.state with
    | StreamStates.Idle =>
      if status.is_reserved then
        ((if receiving then status.set_state StreamStates.ReservedRemote
          else status.set_state StreamStates.ReservedLocal).set_reserved false)
      else status
    | StreamStates.ReservedLocal =>
      if receiving = false then status.set_state StreamStates.HalfClosedRemote else status
    | StreamStates.ReservedRemote =>
      if receiving = true then status.set_state StreamStates.HalfClosedLocal else status
    | _ => status
  if status.should_end then status.set_state StreamStates.Closed else status

/-- `handle_continuation` (handlers.rs lines 134-171); the unconditional
`.unwrap()` on the stream status is the `none` case. -/
def handle_continuation (sm : StreamManager) (receiving : Bool) (f : RawFrame) :
    Option StreamManager :=
  match sm.get_stream_status f.stream_id with
  | none => none
  | some status =>
    if Flags.EndHeaders.is_set f.flags then
      some (sm.writeStatus f.stream_id (handle_continuation_status receiving status))
    else some sm

/-- `handle_data` (handlers.rs lines 177-189): closes on END_STREAM. -/
def handle_data (sm : StreamManager) (receiving : Bool) (f : RawFrame) : StreamManager :=
  if Flags.EndStream.is_set f.flags then sm.close f.stream_id else sm

/-- `handle_priority` (handlers.rs lines 195-199): an empty body. -/
def handle_priority (sm : StreamManager) (receiving : Bool) (f : RawFrame) : StreamManager :=
  sm

/-- `handle_window_update` (handlers.rs lines 204-206): an empty body. -/
def handle_window_update (sm : StreamManager) (receiving : Bool) (f : RawFrame) :
    StreamManager :=
  sm

/-- `handle_rst_stream` (handlers.rs lines 211-215). -/
def handle_rst_stream (sm : StreamManager) (receiving : Bool) (f : RawFrame) : StreamManager :=
  sm.close f.stream_id

/-- `StreamManager::handle_frame` (streammanager.rs lines 139-202).  Returns
`some (false, sm)` when validation rejects the frame, `some (true, sm')` when
the frame is admitted and dispatched, and `none` when a handler panics.
Note the source dispatches PRIORITY at type byte 0x20, not 0x2. -/
def handle_frame (sm : StreamManager) (receiving : Bool) (f : RawFrame) :
    Option (Bool × StreamManager) :=
  if check_valid_frame sm f receiving then
    if f.frame_type = 0x0 then some (true, handle_data sm receiving f)
    else if f.frame_type = 0x1 then (handle_header sm receiving f).map (fun sm' => (true, sm'))
    else if f.frame_type = 0x20 then some (true, handle_priority sm receiving f)
    else if f.frame_type = 0x3 then some (true, handle_rst_stream sm receiving f)
    else if f.frame_type = 0x4 then some (true, sm)
    else if f.frame_type = 0x5 then
      (handle_push_promise sm receiving f).map (fun sm' => (true, sm'))
    else if f.frame_type = 0x6 then some (true, sm)
    else if f.frame_type = 0x7 then some (true, sm)
    else if f.frame_type = 0x8 then some (true, handle_window_update sm receiving f)
    else if f.frame_type = 0x9 then
      (handle_continuation sm receiving f).map (fun sm' => (true, sm'))
    else some (true, sm)
  else some (false, sm)

/-- Runs `handle_frame` over a sequence of (receiving, frame) events;
`none` when any step panics. -/
def run (sm : StreamManager) : List (Bool × RawFrame) → Option StreamManager
  | [] => some sm
  | e :: es =>
    match handle_frame sm e.1 e.2 with
    | none => none
    | some (_, sm') => run sm' es

/-- A manager state is reachable when some event sequence produces it from a
freshly constructed `StreamManager`. -/
def Reachable (sm : StreamManager) : Prop :=
  ∃ (max_streams : Nat) (is_server : Bool) (evs : List (Bool × RawFrame)),
    run (StreamManager.new max_streams is_server) evs = some sm

/-- A node of the dependency tree (prioritymanager.rs, `struct StreamPriority`);
the `HashSet` of children is a duplicate-free list. -/
structure StreamPriority where
  parent : Nat
  depth : Nat
  is_exclusive : Bool
  exclusive_child : Nat
  children : List Nat
deriving DecidableEq, Repr

def StreamPriority.new : StreamPriority :=
  { parent := 0, depth := 1, is_exclusive := false, exclusive_child := 0, children := [] }

def StreamPriority.set_parent (sp : StreamPriority) (parent_id : Nat) : StreamPriority :=
  { sp with parent := parent_id }

def StreamPriority.set_depth (sp : StreamPriority) (depth : Nat) : StreamPriority :=
  { sp with depth := depth }

/-- `StreamPriority::add_child` (`HashSet::insert`: no-op when present). -/
def StreamPriority.add_child (sp : StreamPriority) (child_id : Nat) : StreamPriority :=
  if child_id ∈ sp.children then sp else { sp with children := sp.children ++ [child_id] }

def StreamPriority.remove_child (sp : StreamPriority) (child_id : Nat) : StreamPriority :=
  { sp with children := sp.children.erase child_id }

/-- The dependency tree and ready queue (prioritymanager.rs,
`struct PriorityManager`); the `VecDeque` front is the list head. -/
structure PriorityManager where
  streams : List (Nat × StreamPriority)
  queue : List Nat
deriving DecidableEq, Repr

def PriorityManager.new : PriorityManager :=
  { streams := [], queue := [] }

def PriorityManager.contains (pm : PriorityManager) (stream_id : Nat) : Bool :=
  (alistFind pm.streams stream_id).isSome

/-- The pop loop of `PriorityManager::get`: pops until an entry with
`parent == 0` is found; indexing `self.streams[&x]` at a popped id that is
absent from the map panics (`none`). -/
def getLoop (streams : List (Nat × StreamPriority)) :
    List Nat → Option (Option Nat × List Nat)
  | [] => some (none, [])
  | x :: rest =>
    match alistFind streams x with
    | none => none
    | some sp => if sp.parent = 0 then some (some x, rest) else getLoop streams rest

/-- `PriorityManager::get` (prioritymanager.rs lines 104-121); the outer
`Option` is panic, the inner one is the source's return value. -/
def PriorityManager.get (pm : PriorityManager) : Option (Option Nat × PriorityManager) :=
  match getLoop pm.streams pm.queue with
  | none => none
  | some (r, q) => some (r, { pm with queue := q })

/-- `PriorityManager::add` (prioritymanager.rs lines 124-133).  The source
indexes `self.streams[&stream_id]` right after the conditional insert, so the
key is always present; the impossible branch returns the manager unchanged. -/
def PriorityManager.add (pm : PriorityManager) (stream_id : Nat) : PriorityManager :=
  let pm :=
    if pm.contains stream_id = false then
      { pm with streams := alistInsert pm.streams stream_id StreamPriority.new }
    else pm
  match alistFind pm.streams stream_id with
  | none => pm
  | some sp => if sp.parent = 0 then { pm with queue := pm.queue ++ [stream_id] } else pm

/-- `PriorityManager::connect` (prioritymanager.rs lines 308-318); the two
`unwrap`s are the `none` cases. -/
def PriorityManager.connect (pm : PriorityManager) (child_id parent_id : Nat) :
    Option PriorityManager :=
  let step :=
    if 0 < parent_id then
      match alistFind pm.streams parent_id with
      | none => none
      | some psp =>
        let psp := psp.add_child child_id
        some (psp.depth, { pm with streams := alistModify pm.streams parent_id (fun _ => psp) })
    else some (0, pm)
  match step with
  | none => none
  | some (depth, pm) =>
    match alistFind pm.streams child_id with
    | none => none
    | some csp =>
      let streams' :=
        alistModify pm.streams child_id (fun _ => (csp.set_parent parent_id).set_depth (depth + 1))
      some { pm with streams := streams' }

/-- `PriorityManager::disconnect` (prioritymanager.rs lines 300-305). -/
def PriorityManager.disconnect (pm : PriorityManager) (child_id parent_id : Nat) :
    Option PriorityManager :=
  let step :=
    if 0 < parent_id then
      match alistFind pm.streams parent_id with
      | none => none
      | some psp =>
        some { pm with streams := alistModify pm.streams parent_id (fun _ => psp.remove_child child_id) }
    else some pm
  match step with
  | none => none
  | some pm =>
    match alistFind pm.streams child_id with
    | none => none
    | some csp =>
      some { pm with streams := alistModify pm.streams child_id (fun _ => csp.set_parent 0) }


/-- The traversal of `PriorityManager::update_tree_depths` (prioritymanager.rs
lines 321-338), written with an explicit depth-first work stack so that the
recursion is structural in the fuel: each visited node has its depth
rewritten and its children pushed with depth + 1 (a missing node is skipped,
as the source's `match ... None => ()`).  The recursion follows the heap
shape, which a corrupted graph can make cyclic, so fuel is consumed per visit
and exhaustion returns `none` (the source overflows the stack). -/
def update_tree_depths_work : Nat → PriorityManager → List (Nat × Nat) →
    Option PriorityManager
  | _, pm, [] => some pm
  | 0, _, _ :: _ => none
  | fuel + 1, pm, (child_id, depth) :: rest =>
    match alistFind pm.streams child_id with
    | none => update_tree_depths_work fuel pm rest
    | some sp =>
      let streams' := alistModify pm.streams child_id (fun s => { s with depth := depth })
      update_tree_depths_work fuel { pm with streams := streams' }
        (sp.children.map (fun c => (c, depth + 1)) ++ rest)

/-- `PriorityManager::update_tree_depths` entry point: traverse the subtree
rooted at `child_id`, writing `depth` there. -/
def update_tree_depths (fuel : Nat) (pm : PriorityManager) (child_id : Nat) (depth : Nat) :
    Option PriorityManager :=
  update_tree_depths_work fuel pm [(child_id, depth)]

/-- The ancestor walk of `set_dependant_stream` (`for n in (0..difference)`):
each step indexes `self.streams[&ancestor]` (panic when absent, `none`). -/
def ancestorWalk (streams : List (Nat × StreamPriority)) :
    Nat → Nat → Option Nat
  | 0, ancestor => some ancestor
  | n + 1, ancestor =>
    match alistFind streams ancestor with
    | none => none
    | some sp => ancestorWalk streams n sp.parent

/-- `PriorityManager::swap` (prioritymanager.rs lines 272-297). -/
def PriorityManager.swap (fuel : Nat) (pm : PriorityManager) (node_a node_b : Nat) :
    Option PriorityManager :=
  match alistFind pm.streams node_a, alistFind pm.streams node_b with
  | some a_sp, some b_sp =>
    let ref_x := a_sp.parent
    let ref_a := b_sp.parent
    let depth := a_sp.depth
    match update_tree_depths fuel pm node_b depth with
    | none => none
    | some pm =>
      match pm.disconnect node_b ref_a with
      | none => none
      | some pm =>
        match pm.connect node_b ref_x with
        | none => none
        | some pm =>
          match update_tree_depths fuel pm node_a (depth + 1) with
          | none => none
          | some pm =>
            match pm.disconnect node_a ref_x with
            | none => none
            | some pm => pm.connect node_a node_b
  | _, _ => none

/-- `PriorityManager::set_dependant_stream` (prioritymanager.rs lines 235-269). -/
def PriorityManager.set_dependant_stream (fuel : Nat) (pm : PriorityManager)
    (node_a node_b : Nat) : Option PriorityManager :=
  match alistFind pm.streams node_a, alistFind pm.streams node_b with
  | some a_sp, some b_sp =>
    let child_depth := a_sp.depth
    let parent_depth := b_sp.depth
    if child_depth < parent_depth then
      match ancestorWalk pm.streams (parent_depth - child_depth) node_b with
      | none => none
      | some ancestor =>
        if ancestor = node_a then pm.swap fuel node_a node_b
        else
          match pm.connect node_a node_b with
          | none => none
          | some pm => update_tree_depths fuel pm node_a (parent_depth + 1)
    else
      match pm.connect node_a node_b with
      | none => none
      | some pm => update_tree_depths fuel pm node_a (parent_depth + 1)
  | _, _ => none

/-- `PriorityManager::set_dependant` (prioritymanager.rs lines 144-155). -/
def PriorityManager.set_dependant (fuel : Nat) (pm : PriorityManager)
    (child_id parent_id : Nat) : Option PriorityManager :=
  if pm.contains child_id = true ∧ pm.contains parent_id = true then
    match alistFind pm.streams parent_id with
    | none => some pm
    | some psp =>
      if psp.is_exclusive = true ∧ psp.children.length = 1 then
        pm.set_dependant_stream fuel child_id psp.exclusive_child
      else pm.set_dependant_stream fuel child_id parent_id
  else some pm

/-- `PriorityManager::add_with_dependancy` (prioritymanager.rs lines 136-141). -/
def PriorityManager.add_with_dependancy (fuel : Nat) (pm : PriorityManager)
    (stream_id parent_id : Nat) : Option PriorityManager :=
  if pm.contains stream_id = false ∧ pm.contains parent_id = true then
    let pm := { pm with streams := alistInsert pm.streams stream_id StreamPriority.new }
    pm.set_dependant fuel stream_id parent_id
  else some pm

/-- The `for child_id in stream.children` loop of `retire`: reparents each
child, enqueues it when the retired node was a root, and otherwise rewires the
grandparent's child set (adding every child of the retired node). -/
def retireChildren (pm : PriorityManager) (retired_id : Nat) (stream : StreamPriority) :
    List Nat → Option PriorityManager
  | [] => some pm
  | child_id :: rest =>
    match alistFind pm.streams child_id with
    | none => none
    | some csp =>
      let streams' := alistModify pm.streams child_id (fun _ => csp.set_parent stream.parent)
      let pm := { pm with streams := streams' }
      let pm :=
        if stream.parent = 0 then some (pm.add child_id)
        else if stream.parent ≠ 0 ∧ pm.contains stream.parent = true then
          match alistFind pm.streams stream.parent with
          | none => none
          | some gp =>
            let gp := gp.remove_child retired_id
            let gp := stream.children.foldl (fun g c => g.add_child c) gp
            some { pm with streams := alistModify pm.streams stream.parent (fun _ => gp) }
        else some pm
      match pm with
      | none => none
      | some pm => retireChildren pm retired_id stream rest

/-- `PriorityManager::retire` (prioritymanager.rs lines 193-222). -/
def PriorityManager.retire (fuel : Nat) (pm : PriorityManager) (stream_id : Nat) :
    Option PriorityManager :=
  if pm.contains stream_id = true then
    match alistFind pm.streams stream_id with
    | none => some pm
    | some sp0 =>
      match update_tree_depths fuel pm stream_id (sp0.depth - 1) with
      | none => none
      | some pm =>
        match alistFind pm.streams stream_id with
        | none => none
        | some stream =>
          let pm := { pm with streams := alistErase pm.streams stream_id }
          retireChildren pm stream_id stream stream.children
  else some pm
/-- The status tuple (state, expects_continuation, should_end, is_reserved)
observed on one stream of a manager. -/
def observe (sm : StreamManager) (i : Nat) :
    Option (StreamStates × Bool × Bool × Bool) :=
  (sm.get_stream_status i).map
    (fun st => (st.state, st.expects_continuation, st.should_end, st.is_reserved))

/-- The operation sequence `add(1); add(2); add_with_dependancy(3, 1);
set_dependant(3, 2); set_dependant(1, 2)` (fuel 200 everywhere, ample for
these trees).  `set_dependant(3, 2)` reparents 3 under 2 without removing 3
from 1's child set, and `set_dependant(1, 2)`'s depth rewrite then walks the
stale edge 1 → 3 and records depth 3 for node 3, though its parent chain
3 → 2 has length 2. -/
def cyclePrefix : Option PriorityManager :=
  (PriorityManager.add_with_dependancy 200
      (PriorityManager.add (PriorityManager.add PriorityManager.new 1) 2) 3 1).bind
    (fun pm => (PriorityManager.set_dependant 200 pm 3 2).bind
      (fun pm => PriorityManager.set_dependant 200 pm 1 2))

lemma land_two_ne_one (n : Nat) : n &&& 2 ≠ 1 := by
  intro h
  have h0 := congrArg (fun m => Nat.testBit m 0) h
  simp only [Nat.testBit_land] at h0
  have e2 : Nat.testBit 2 0 = false := by decide
  have e1 : Nat.testBit 1 0 = true := by decide
  rw [e2, e1] at h0
  simp at h0

lemma alistFind_insert {α : Type} (l : List (Nat × α)) (k i : Nat) (v : α) :
    alistFind (alistInsert l k v) i = if i = k then some v else alistFind l i := by
  induction l with
  | nil =>
    simp only [alistInsert, alistFind]
    by_cases h : i = k
    · subst h; simp
    · have h' : ¬ k = i := fun hh => h hh.symm
      simp [h, h']
  | cons hd t ih =>
    obtain ⟨k', v'⟩ := hd
    simp only [alistInsert]
    by_cases hk : k' = k
    · subst hk
      simp only [if_pos rfl, alistFind]
      by_cases h : i = k'
      · subst h; simp
      · have h' : ¬ k' = i := fun hh => h hh.symm
        simp [h, h']
    · rw [if_neg hk]
      simp only [alistFind, ih]
      by_cases h : k' = i
      · subst h; simp [hk]
      · simp [h]

lemma alistFind_modify {α : Type} (l : List (Nat × α)) (k i : Nat) (g : α → α) :
    alistFind (alistModify l k g) i =
      if i = k then (alistFind l i).map g else alistFind l i := by
  induction l with
  | nil => simp only [alistModify, alistFind]; split <;> simp
  | cons hd t ih =>
    obtain ⟨k', v'⟩ := hd
    simp only [alistModify]
    by_cases hk : k' = k
    · subst hk
      simp only [if_pos rfl, alistFind]
      by_cases h : i = k'
      · subst h; simp
      · have h' : ¬ k' = i := fun hh => h hh.symm
        simp [h, h']
    · rw [if_neg hk]
      simp only [alistFind, ih]
      by_cases h : k' = i
      · subst h; simp [hk]
      · simp [h]

lemma get_writeStatus (sm : StreamManager) (j i : Nat) (st : StreamStatus) :
    (sm.writeStatus j st).get_stream_status i =
      if i = j then (sm.get_stream_status i).map (fun _ => st) else sm.get_stream_status i := by
  simp [StreamManager.writeStatus, StreamManager.get_stream_status, alistFind_modify]

lemma get_set_state (sm : StreamManager) (j i : Nat) (s : StreamStates) :
    (sm.set_state j s).get_stream_status i =
      if i = j then (sm.get_stream_status i).map (fun st => st.set_state s)
      else sm.get_stream_status i := by
  simp [StreamManager.set_state, StreamManager.get_stream_status, alistFind_modify]

lemma get_open_idle_ne (sm : StreamManager) (r : Bool) (j i : Nat) (hne : i ≠ j) :
    (sm.open_idle r j).get_stream_status i = sm.get_stream_status i := by
  unfold StreamManager.open_idle
  split
  · split <;> simp [StreamManager.get_stream_status, alistFind_insert, hne]
  · rfl

lemma get_open_stream_ne (sm sm1 : StreamManager) (r : Bool) (j i : Nat)
    (h : sm.open_stream j r = some sm1) (hne : i ≠ j) :
    sm1.get_stream_status i = sm.get_stream_status i := by
  have h2 : ∀ b : Bool, (if b then sm.open_idle r j else sm).get_stream_status i =
      sm.get_stream_status i := by
    intro b
    cases b
    · rfl
    · exact get_open_idle_ne sm r j i hne
  simp only [StreamManager.open_stream] at h
  split at h
  · cases h
  · split at h
    · cases h
      rw [get_set_state, if_neg hne]
      exact h2 _
    · cases h
      exact h2 _

/-- Identifier-monotonicity invariant of the stream table: every id present in
the table is bounded by the recorded last id of its parity class.  It holds in
every reachable manager state because `open_idle` is the only insertion point
and it records the inserted id. -/
def goodIds (sm : StreamManager) : Prop :=
  ∀ k st, alistFind sm.streams k = some st →
    (k % 2 = 0 → k ≤ sm.last_server_id) ∧ (k % 2 = 1 → k ≤ sm.last_client_id)

lemma goodIds_writeStatus (sm : StreamManager) (j : Nat) (st : StreamStatus)
    (hg : goodIds sm) : goodIds (sm.writeStatus j st) := by
  intro k s hks
  have hks' : alistFind (alistModify sm.streams j (fun _ => st)) k = some s := hks
  rw [alistFind_modify] at hks'
  split at hks'
  · cases hfind : alistFind sm.streams k with
    | none => rw [hfind] at hks'; cases hks'
    | some s0 => exact hg k s0 hfind
  · exact hg k s hks'

lemma goodIds_set_state (sm : StreamManager) (j : Nat) (s : StreamStates)
    (hg : goodIds sm) : goodIds (sm.set_state j s) := by
  intro k st hks
  have hks' : alistFind (alistModify sm.streams j (fun st => st.set_state s)) k = some st := hks
  rw [alistFind_modify] at hks'
  split at hks'
  · cases hfind : alistFind sm.streams k with
    | none => rw [hfind] at hks'; cases hks'
    | some s0 => exact hg k s0 hfind
  · exact hg k st hks'

lemma cvor_bounds (sm : StreamManager) (k : Nat) (r : Bool)
    (h : sm.check_valid_open_request k r = true) :
    (k % 2 = 0 ∧ sm.last_server_id < k) ∨ (k % 2 = 1 ∧ sm.last_client_id < k) := by
  unfold StreamManager.check_valid_open_request at h
  cases r with
  | true =>
    by_cases c1 : sm.is_server = true ∧ sm.last_client_id < k ∧ k &&& 2 = 1
    · exact absurd c1.2.2 (land_two_ne_one k)
    · rw [if_neg c1] at h
      by_cases c2 : sm.is_server = false ∧ sm.last_server_id < k ∧ k % 2 = 0
      · exact Or.inl ⟨c2.2.2, c2.2.1⟩
      · rw [if_neg c2] at h; simp at h
  | false =>
    by_cases c1 : sm.is_server = true ∧ sm.last_server_id < k ∧ k % 2 = 0
    · exact Or.inl ⟨c1.2.2, c1.2.1⟩
    · rw [if_neg c1] at h
      by_cases c2 : sm.is_server = false ∧ sm.last_client_id < k ∧ k % 2 = 1
      · exact Or.inr ⟨c2.2.2, c2.2.1⟩
      · rw [if_neg c2] at h; simp at h

lemma goodIds_open_idle (sm : StreamManager) (r : Bool) (j : Nat)
    (hg : goodIds sm) : goodIds (sm.open_idle r j) := by
  unfold StreamManager.open_idle
  by_cases hc : sm.check_valid_open_request j r = true
  · rw [if_pos hc]
    rcases cvor_bounds sm j r hc with ⟨hpar, hlt⟩ | ⟨hpar, hlt⟩
    · rw [if_pos hpar]
      intro k st hks
      have hks' : alistFind (alistInsert sm.streams j StreamStatus.new) k = some st := hks
      rw [alistFind_insert] at hks'
      by_cases hkj : k = j
      · subst hkj
        exact ⟨fun _ => le_refl k, fun ho => by omega⟩
      · rw [if_neg hkj] at hks'
        obtain ⟨he, ho⟩ := hg k st hks'
        exact ⟨fun hp => le_trans (he hp) (le_of_lt hlt), ho⟩
    · have hne : ¬ (j % 2 = 0) := by omega
      rw [if_neg hne]
      intro k st hks
      have hks' : alistFind (alistInsert sm.streams j StreamStatus.new) k = some st := hks
      rw [alistFind_insert] at hks'
      by_cases hkj : k = j
      · subst hkj
        exact ⟨fun he => by omega, fun _ => le_refl k⟩
      · rw [if_neg hkj] at hks'
        obtain ⟨he, ho⟩ := hg k st hks'
        exact ⟨he, fun hp => le_trans (ho hp) (le_of_lt hlt)⟩
  · rw [if_neg hc]; exact hg

lemma goodIds_open_stream (sm sm1 : StreamManager) (j : Nat) (r : Bool)
    (h : sm.open_stream j r = some sm1) (hg : goodIds sm) : goodIds sm1 := by
  have h2 : ∀ b : Bool, goodIds (if b then sm.open_idle r j else sm) := by
    intro b
    cases b
    · exact hg
    · exact goodIds_open_idle sm r j hg
  simp only [StreamManager.open_stream] at h
  split at h
  · cases h
  · split at h
    · cases h
      exact goodIds_set_state _ _ _ (h2 _)
    · cases h
      exact h2 _

lemma handle_header_status_closed (r : Bool) (flag : Nat) (st : StreamStatus)
    (h : st.state = StreamStates.Closed) :
    (handle_header_status r flag st).state = StreamStates.Closed := by
  obtain ⟨s, ec, se, res⟩ := st
  simp only at h
  subst h
  by_cases hEH : Flags.EndHeaders.is_set flag = true <;>
    by_cases hES : Flags.EndStream.is_set flag = true <;>
      simp [handle_header_status, hEH, hES, StreamStatus.set_continue, StreamStatus.set_end]

lemma handle_continuation_status_closed (r : Bool) (st : StreamStatus)
    (h : st.state = StreamStates.Closed) :
    (handle_continuation_status r st).state = StreamStates.Closed := by
  obtain ⟨s, ec, se, res⟩ := st
  simp only at h
  subst h
  by_cases hse : se = true <;>
    simp [handle_continuation_status, hse, StreamStatus.set_continue, StreamStatus.set_state]

lemma handle_header_ne (sm sm1 : StreamManager) (r : Bool) (f : RawFrame) (i : Nat)
    (h : handle_header sm r f = some sm1) (hne : i ≠ f.stream_id) :
    sm1.get_stream_status i = sm.get_stream_status i := by
  simp only [handle_header] at h
  split at h
  · cases h
  · next sm2 hopen =>
    have h2 : sm2.get_stream_status i = sm.get_stream_status i := by
      revert hopen
      split
      · intro hopen; exact get_open_stream_ne sm sm2 r f.stream_id i hopen hne
      · intro hopen; cases hopen; rfl
    split at h
    · cases h
    · cases h
      rw [get_writeStatus, if_neg hne, h2]

lemma handle_header_closed (sm sm1 : StreamManager) (r : Bool) (f : RawFrame)
    (h : handle_header sm r f = some sm1) (st : StreamStatus)
    (hst : sm.get_stream_status f.stream_id = some st)
    (hcl : st.state = StreamStates.Closed) :
    ∃ st', sm1.get_stream_status f.stream_id = some st' ∧
      st'.state = StreamStates.Closed := by
  simp only [handle_header, hst] at h
  rw [if_neg (by rw [hcl]; intro hh; cases hh)] at h
  simp only [hst] at h
  cases h
  refine ⟨handle_header_status r f.flags st, ?_, handle_header_status_closed r f.flags st hcl⟩
  rw [get_writeStatus, if_pos rfl, hst]
  rfl

lemma handle_header_goodIds (sm sm1 : StreamManager) (r : Bool) (f : RawFrame)
    (h : handle_header sm r f = some sm1) (hg : goodIds sm) : goodIds sm1 := by
  simp only [handle_header] at h
  split at h
  · cases h
  · next sm2 hopen =>
    have h2 : goodIds sm2 := by
      revert hopen
      split
      · intro hopen; exact goodIds_open_stream sm sm2 f.stream_id r hopen hg
      · intro hopen; cases hopen; exact hg
    split at h
    · cases h
    · cases h
      exact goodIds_writeStatus _ _ _ h2

lemma handle_push_promise_ne (sm sm1 : StreamManager) (r : Bool) (f : RawFrame) (i : Nat)
    (h : handle_push_promise sm r f = some sm1) (hne : i ≠ f.stream_id) :
    sm1.get_stream_status i = sm.get_stream_status i := by
  simp only [handle_push_promise] at h
  split at h
  · split at h
    · cases h
    · cases h
      rw [get_writeStatus, if_neg hne, get_open_idle_ne sm r f.stream_id i hne]
  · cases h; rfl

lemma handle_push_promise_closed (sm sm1 : StreamManager) (r : Bool) (f : RawFrame)
    (h : handle_push_promise sm r f = some sm1) (st : StreamStatus)
    (hst : sm.get_stream_status f.stream_id = some st)
    (hcl : st.state = StreamStates.Closed) :
    ∃ st', sm1.get_stream_status f.stream_id = some st' ∧
      st'.state = StreamStates.Closed := by
  simp only [handle_push_promise, hst] at h
  simp at h
  cases h
  exact ⟨st, hst, hcl⟩

lemma handle_push_promise_goodIds (sm sm1 : StreamManager) (r : Bool) (f : RawFrame)
    (h : handle_push_promise sm r f = some sm1) (hg : goodIds sm) : goodIds sm1 := by
  simp only [handle_push_promise] at h
  split at h
  · split at h
    · cases h
    · cases h
      exact goodIds_writeStatus _ _ _ (goodIds_open_idle sm r f.stream_id hg)
  · cases h; exact hg

lemma handle_continuation_ne (sm sm1 : StreamManager) (r : Bool) (f : RawFrame) (i : Nat)
    (h : handle_continuation sm r f = some sm1) (hne : i ≠ f.stream_id) :
    sm1.get_stream_status i = sm.get_stream_status i := by
  simp only [handle_continuation] at h
  split at h
  · cases h
  · split at h
    · cases h
      rw [get_writeStatus, if_neg hne]
    · cases h; rfl

lemma handle_continuation_closed (sm sm1 : StreamManager) (r : Bool) (f : RawFrame)
    (h : handle_continuation sm r f = some sm1) (st : StreamStatus)
    (hst : sm.get_stream_status f.stream_id = some st)
    (hcl : st.state = StreamStates.Closed) :
    ∃ st', sm1.get_stream_status f.stream_id = some st' ∧
      st'.state = StreamStates.Closed := by
  simp only [handle_continuation, hst] at h
  split at h
  · cases h
    refine ⟨handle_continuation_status r st, ?_, handle_continuation_status_closed r st hcl⟩
    rw [get_writeStatus, if_pos rfl, hst]
    rfl
  · cases h
    exact ⟨st, hst, hcl⟩

lemma handle_continuation_goodIds (sm sm1 : StreamManager) (r : Bool) (f : RawFrame)
    (h : handle_continuation sm r f = some sm1) (hg : goodIds sm) : goodIds sm1 := by
  simp only [handle_continuation] at h
  split at h
  · cases h
  · split at h
    · cases h
      exact goodIds_writeStatus _ _ _ hg
    · cases h; exact hg

lemma close_effects (sm : StreamManager) (j : Nat) (i : Nat) :
    (i ≠ j → (sm.close j).get_stream_status i = sm.get_stream_status i) ∧
    (∀ st, sm.get_stream_status j = some st →
      ∃ st', (sm.close j).get_stream_status j = some st' ∧
        st'.state = StreamStates.Closed) := by
  constructor
  · intro hne
    rw [StreamManager.close, get_set_state, if_neg hne]
  · intro st hst
    refine ⟨st.set_state StreamStates.Closed, ?_, rfl⟩
    rw [StreamManager.close, get_set_state, if_pos rfl, hst]
    rfl

/-- One `handle_frame` step that returns normally: streams other than the
frame's target are untouched, a `Closed` target stays `Closed`, and the
identifier invariant is preserved. -/
lemma handle_frame_effects (sm sm' : StreamManager) (r b : Bool) (f : RawFrame)
    (h : handle_frame sm r f = some (b, sm')) :
    (∀ i, i ≠ f.stream_id → sm'.get_stream_status i = sm.get_stream_status i) ∧
    (∀ st, sm.get_stream_status f.stream_id = some st → st.state = StreamStates.Closed →
      ∃ st', sm'.get_stream_status f.stream_id = some st' ∧ st'.state = StreamStates.Closed) ∧
    (goodIds sm → goodIds sm') := by
  unfold handle_frame at h
  by_cases hv : check_valid_frame sm f r = true
  case neg =>
    rw [if_neg hv] at h
    cases h
    exact ⟨fun i _ => rfl, fun st hst hcl => ⟨st, hst, hcl⟩, id⟩
  case pos =>
    rw [if_pos hv] at h
    by_cases h0 : f.frame_type = 0x0
    · rw [if_pos h0] at h
      cases h
      by_cases hes : Flags.EndStream.is_set f.flags = true
      · simp only [handle_data, hes, if_pos] at *
        refine ⟨fun i hne => ((close_effects sm f.stream_id i).1 hne), ?_, ?_⟩
        · intro st hst _
          exact (close_effects sm f.stream_id f.stream_id).2 st hst
        · intro hg
          exact goodIds_set_state _ _ _ hg
      · simp only [handle_data, hes, if_neg, if_false] at *
        exact ⟨fun i _ => rfl, fun st hst hcl => ⟨st, hst, hcl⟩, id⟩
    · rw [if_neg h0] at h
      by_cases h1 : f.frame_type = 0x1
      · rw [if_pos h1] at h
        rcases Option.map_eq_some'.mp h with ⟨sm1, hh, heq⟩
        injection heq with hb hsm
        subst hsm
        exact ⟨fun i hne => handle_header_ne sm sm1 r f i hh hne,
          fun st hst hcl => handle_header_closed sm sm1 r f hh st hst hcl,
          fun hg => handle_header_goodIds sm sm1 r f hh hg⟩
      · rw [if_neg h1] at h
        by_cases h32 : f.frame_type = 0x20
        · rw [if_pos h32] at h
          cases h
          exact ⟨fun i _ => rfl, fun st hst hcl => ⟨st, hst, hcl⟩, id⟩
        · rw [if_neg h32] at h
          by_cases h3 : f.frame_type = 0x3
          · rw [if_pos h3] at h
            cases h
            refine ⟨fun i hne => ((close_effects sm f.stream_id i).1 hne), ?_, ?_⟩
            · intro st hst _
              exact (close_effects sm f.stream_id f.stream_id).2 st hst
            · intro hg
              exact goodIds_set_state _ _ _ hg
          · rw [if_neg h3] at h
            by_cases h4 : f.frame_type = 0x4
            · rw [if_pos h4] at h
              cases h
              exact ⟨fun i _ => rfl, fun st hst hcl => ⟨st, hst, hcl⟩, id⟩
            · rw [if_neg h4] at h
              by_cases h5 : f.frame_type = 0x5
              · rw [if_pos h5] at h
                rcases Option.map_eq_some'.mp h with ⟨sm1, hh, heq⟩
                injection heq with hb hsm
                subst hsm
                exact ⟨fun i hne => handle_push_promise_ne sm sm1 r f i hh hne,
                  fun st hst hcl => handle_push_promise_closed sm sm1 r f hh st hst hcl,
                  fun hg => handle_push_promise_goodIds sm sm1 r f hh hg⟩
              · rw [if_neg h5] at h
                by_cases h6 : f.frame_type = 0x6
                · rw [if_pos h6] at h
                  cases h
                  exact ⟨fun i _ => rfl, fun st hst hcl => ⟨st, hst, hcl⟩, id⟩
                · rw [if_neg h6] at h
                  by_cases h7 : f.frame_type = 0x7
                  · rw [if_pos h7] at h
                    cases h
                    exact ⟨fun i _ => rfl, fun st hst hcl => ⟨st, hst, hcl⟩, id⟩
                  · rw [if_neg h7] at h
                    by_cases h8 : f.frame_type = 0x8
                    · rw [if_pos h8] at h
                      cases h
                      exact ⟨fun i _ => rfl, fun st hst hcl => ⟨st, hst, hcl⟩, id⟩
                    · rw [if_neg h8] at h
                      by_cases h9 : f.frame_type = 0x9
                      · rw [if_pos h9] at h
                        rcases Option.map_eq_some'.mp h with ⟨sm1, hh, heq⟩
                        injection heq with hb hsm
                        subst hsm
                        exact ⟨fun i hne => handle_continuation_ne sm sm1 r f i hh hne,
                          fun st hst hcl => handle_continuation_closed sm sm1 r f hh st hst hcl,
                          fun hg => handle_continuation_goodIds sm sm1 r f hh hg⟩
                      · rw [if_neg h9] at h
                        cases h
                        exact ⟨fun i _ => rfl, fun st hst hcl => ⟨st, hst, hcl⟩, id⟩

lemma run_closed (evs : List (Bool × RawFrame)) :
    ∀ (sm sm' : StreamManager) (i : Nat) (st : StreamStatus),
      run sm evs = some sm' → sm.get_stream_status i = some st →
      st.state = StreamStates.Closed →
      ∃ st', sm'.get_stream_status i = some st' ∧ st'.state = StreamStates.Closed := by
  induction evs with
  | nil =>
    intro sm sm' i st h hst hcl
    cases h
    exact ⟨st, hst, hcl⟩
  | cons e es ih =>
    intro sm sm' i st h hst hcl
    simp only [run] at h
    cases hstep : handle_frame sm e.1 e.2 with
    | none => rw [hstep] at h; cases h
    | some p =>
      rw [hstep] at h
      obtain ⟨b, sm1⟩ := p
      obtain ⟨hne, hcls, _⟩ := handle_frame_effects sm sm1 e.1 b e.2 hstep
      by_cases hi : i = e.2.stream_id
      · subst hi
        obtain ⟨st1, hst1, hcl1⟩ := hcls st hst hcl
        exact ih sm1 sm' _ st1 h hst1 hcl1
      · have hst1 : sm1.get_stream_status i = some st := by rw [hne i hi, hst]
        exact ih sm1 sm' i st h hst1 hcl

lemma run_goodIds (evs : List (Bool × RawFrame)) :
    ∀ (sm sm' : StreamManager), run sm evs = some sm' → goodIds sm → goodIds sm' := by
  induction evs with
  | nil =>
    intro sm sm' h hg
    cases h
    exact hg
  | cons e es ih =>
    intro sm sm' h hg
    simp only [run] at h
    cases hstep : handle_frame sm e.1 e.2 with
    | none => rw [hstep] at h; cases h
    | some p =>
      rw [hstep] at h
      obtain ⟨b, sm1⟩ := p
      obtain ⟨_, _, hgi⟩ := handle_frame_effects sm sm1 e.1 b e.2 hstep
      exact ih sm1 sm' h (hgi hg)

lemma reachable_goodIds (sm : StreamManager) (h : Reachable sm) : goodIds sm := by
  obtain ⟨max_streams, is_server, evs, hrun⟩ := h
  refine run_goodIds evs _ sm hrun ?_
  intro k st hks
  cases hks

lemma handle_frame_admitted (sm sm' : StreamManager) (r : Bool) (f : RawFrame)
    (h : handle_frame sm r f = some (true, sm')) : check_valid_frame sm f r = true := by
  by_cases hv : check_valid_frame sm f r = true
  · exact hv
  · exfalso
    unfold handle_frame at h
    rw [if_neg hv] at h
    simp [Prod.ext_iff] at h

lemma handle_frame_rejected (sm : StreamManager) (r : Bool) (f : RawFrame)
    (hv : ¬ check_valid_frame sm f r = true) : handle_frame sm r f = some (false, sm) := by
  unfold handle_frame
  rw [if_neg hv]

lemma cvf_valid_so_far (sm : StreamManager) (f : RawFrame) (r : Bool)
    (h : check_valid_frame sm f r = true) :
    (if f.frame_type = 0x1 then true
     else if f.frame_type = 0x5 then sm.check_valid_open_request f.stream_id r
     else check_continue sm f) = true := by
  simp only [check_valid_frame] at h
  by_contra hc
  rw [if_neg hc] at h
  simp at h

lemma check_continue_ec_nine (sm : StreamManager) (f : RawFrame) (st : StreamStatus)
    (hst : sm.get_stream_status f.stream_id = some st)
    (hec : st.expects_continuation = true)
    (h : check_continue sm f = true) : f.frame_type = 0x9 := by
  unfold check_continue at h
  rw [hst] at h
  by_contra h9
  simp only [hec, if_pos h9] at h
  simp at h

lemma check_continue_false_nine (sm : StreamManager) (f : RawFrame)
    (h9 : f.frame_type = 0x9)
    (hec : ∀ st, sm.get_stream_status f.stream_id = some st →
      st.expects_continuation = false) :
    check_continue sm f = false := by
  unfold check_continue
  cases hst : sm.get_stream_status f.stream_id with
  | none => rfl
  | some st =>
    have he := hec st hst
    simp [he, h9]

/-- C1 counterexample: after receiving PUSH_PROMISE(2), CONTINUATION(2,
END_HEADERS) and HEADERS(2, END_STREAM), stream 2 has
`expects_continuation = true`, yet a further HEADERS frame (type 0x1, not
CONTINUATION) on stream 2 is admitted by `handle_frame`, contradicting the
claim that only CONTINUATION is admissible then. -/
theorem continuation_gate_counterexample :
    run (StreamManager.new 4 false)
        [(true, ⟨3, 0x5, 0x0, 2⟩), (true, ⟨3, 0x9, 0x4, 2⟩), (true, ⟨3, 0x1, 0x1, 2⟩)] =
      some { last_server_id := 2, last_client_id := 0, max_concurrent_streams := 4,
             streams := [(2, ⟨StreamStates.ReservedRemote, true, true, false⟩)],
             is_server := false } ∧
    (handle_frame
        { last_server_id := 2, last_client_id := 0, max_concurrent_streams := 4,
          streams := [(2, ⟨StreamStates.ReservedRemote, true, true, false⟩)],
          is_server := false } true ⟨3, 0x1, 0x0, 2⟩).map Prod.fst = some true ∧
    (0x1 : Nat) ≠ 0x9 := by decide

/-- C1 amended: in every reachable manager state, a frame admitted by
`handle_frame` while its target stream has `expects_continuation = true` has
frame type CONTINUATION (0x9) or HEADERS (0x1) — the validator exempts HEADERS
from the continuation gate — and a CONTINUATION frame whose target stream is
absent or not expecting continuation is rejected with the manager unchanged. -/
theorem continuation_gate_amended (sm : StreamManager) (hr : Reachable sm) (receiving : Bool)
    (f : RawFrame) :
    (∀ st sm', sm.get_stream_status f.stream_id = some st →
      st.expects_continuation = true →
      handle_frame sm receiving f = some (true, sm') →
      f.frame_type = 0x9 ∨ f.frame_type = 0x1) ∧
    (f.frame_type = 0x9 →
      (∀ st, sm.get_stream_status f.stream_id = some st →
        st.expects_continuation = false) →
      handle_frame sm receiving f = some (false, sm)) := by
  constructor
  · intro st sm' hst hec hadm
    have hv := handle_frame_admitted sm sm' receiving f hadm
    have hvsf := cvf_valid_so_far sm f receiving hv
    by_cases h1 : f.frame_type = 0x1
    · exact Or.inr h1
    · rw [if_neg h1] at hvsf
      by_cases h5 : f.frame_type = 0x5
      · exfalso
        rw [if_pos h5] at hvsf
        have hb := cvor_bounds sm f.stream_id receiving hvsf
        have hg := reachable_goodIds sm hr
        obtain ⟨he, ho⟩ := hg f.stream_id st hst
        rcases hb with ⟨hp, hlt⟩ | ⟨hp, hlt⟩
        · have := he hp; omega
        · have := ho hp; omega
      · rw [if_neg h5] at hvsf
        exact Or.inl (check_continue_ec_nine sm f st hst hec hvsf)
  · intro h9 hec
    apply handle_frame_rejected
    intro hv
    have hvsf := cvf_valid_so_far sm f receiving hv
    rw [if_neg (by rw [h9]; decide), if_neg (by rw [h9]; decide)] at hvsf
    rw [check_continue_false_nine sm f h9 hec] at hvsf
    simp at hvsf

/-- C1 amended witness: a CONTINUATION frame on the (absent) stream 2 of a
fresh client manager is rejected and the manager is unchanged. -/
theorem continuation_gate_amended_witness :
    handle_frame (StreamManager.new 4 false) true ⟨3, 0x9, 0x0, 2⟩ =
      some (false, StreamManager.new 4 false) :=
  (continuation_gate_amended (StreamManager.new 4 false) ⟨4, false, [], rfl⟩ true
      ⟨3, 0x9, 0x0, 2⟩).2 rfl (fun st hst => Option.noConfusion hst)

/-- C2: Closed is terminal.  For every run starting from a fresh
`StreamManager`, once a stream is `Closed` it is still `Closed` (and present)
after any further sequence of `handle_frame` events that returns normally. -/
theorem closed_is_terminal (max_streams : Nat) (is_server : Bool)
    (evs1 evs2 : List (Bool × RawFrame)) (sm sm' : StreamManager) (i : Nat)
    (st st' : StreamStatus)
    (h1 : run (StreamManager.new max_streams is_server) evs1 = some sm)
    (hst : sm.get_stream_status i = some st)
    (hcl : st.state = StreamStates.Closed)
    (h2 : run sm evs2 = some sm')
    (hst' : sm'.get_stream_status i = some st') :
    st'.state = StreamStates.Closed := by
  obtain ⟨st'', hf, hc⟩ := run_closed evs2 sm sm' i st h2 hst hcl
  rw [hst'] at hf
  injection hf with hf'
  rw [hf']
  exact hc

/-- C2 witness: open stream 2 by a received HEADERS(END_HEADERS), close it by a
received RST_STREAM, then process an admitted PRIORITY-typed (0x20) frame; the
stream is still `Closed`. -/
theorem closed_is_terminal_witness :
    (⟨StreamStates.Closed, false, false, false⟩ : StreamStatus).state =
      StreamStates.Closed :=
  closed_is_terminal 4 false
    [(true, ⟨3, 0x1, 0x4, 2⟩), (true, ⟨3, 0x3, 0x0, 2⟩)]
    [(true, ⟨3, 0x20, 0x0, 2⟩)]
    { last_server_id := 2, last_client_id := 0, max_concurrent_streams := 4,
      streams := [(2, ⟨StreamStates.Closed, false, false, false⟩)], is_server := false }
    { last_server_id := 2, last_client_id := 0, max_concurrent_streams := 4,
      streams := [(2, ⟨StreamStates.Closed, false, false, false⟩)], is_server := false }
    2 ⟨StreamStates.Closed, false, false, false⟩ ⟨StreamStates.Closed, false, false, false⟩
    (by decide) (by decide) rfl (by decide) (by decide)

/-- C3: the claim says an invalid opener HEADERS is rejected with a normal
return, but the code panics: `check_valid_frame` admits every HEADERS frame
("handled by header handler"), and `handle_header` then calls
`StreamManager::open`, whose `self.streams[&stream_id]` index panics after
`open_idle` declines to insert the invalid id.  On a fresh client manager,
receiving HEADERS on stream 1 (wrong parity for a peer-opened stream) panics
(modelled `none`) although validation returned true. -/
theorem headers_opener_check_panics :
    check_valid_frame (StreamManager.new 4 false) ⟨3, 0x1, 0x0, 1⟩ true = true ∧
    (StreamManager.new 4 false).check_valid_open_request 1 true = false ∧
    handle_frame (StreamManager.new 4 false) true ⟨3, 0x1, 0x0, 1⟩ = none := by decide

/-- C4: the claim says a server accepts exactly the odd ids above
`last_client_id`, but the source tests `stream_id & 2 == 1`, which no natural
number satisfies, so `check_valid_open_request(id, receiving = true)` on a
server rejects every id — including the odd id 1 above `last_client_id = 0` on
a fresh server manager, and every id below 64 as sampled here. -/
theorem server_open_request_rejects_odd_ids :
    (StreamManager.new 4 true).check_valid_open_request 1 true = false ∧
    (StreamManager.new 4 true).last_client_id < 1 ∧ 1 % 2 = 1 ∧
    (∀ id : Nat, id < 64 →
      (StreamManager.new 4 true).check_valid_open_request id true = false) := by decide

/-- C5: the claim says DATA + END_STREAM moves an `Open` stream to a
half-closed state, but `handle_data` calls `close` whenever END_STREAM is set:
after HEADERS(END_HEADERS) opens stream 2 (receiving, client manager), an
admitted DATA(END_STREAM) leaves the stream `Closed`, not
`HalfClosedRemote`. -/
theorem data_end_stream_closes_open_stream :
    run (StreamManager.new 4 false) [(true, ⟨3, 0x1, 0x4, 2⟩)] =
      some { last_server_id := 2, last_client_id := 0, max_concurrent_streams := 4,
             streams := [(2, ⟨StreamStates.Open, false, false, false⟩)],
             is_server := false } ∧
    handle_frame
        { last_server_id := 2, last_client_id := 0, max_concurrent_streams := 4,
          streams := [(2, ⟨StreamStates.Open, false, false, false⟩)], is_server := false }
        true ⟨3, 0x0, 0x1, 2⟩ =
      some (true,
        { last_server_id := 2, last_client_id := 0, max_concurrent_streams := 4,
          streams := [(2, ⟨StreamStates.Closed, false, false, false⟩)],
          is_server := false }) ∧
    StreamStates.Closed ≠ StreamStates.HalfClosedRemote := by decide

/-- C7: scenario S3 on a receiving client, stream 2.  After PUSH_PROMISE
(no flags): Idle, ec = true, is_reserved = true; after CONTINUATION
(END_HEADERS): ReservedRemote, ec = false, is_reserved = false; after HEADERS
(END_STREAM): ReservedRemote, ec = true, should_end = true; after a final
CONTINUATION(END_HEADERS): Closed. -/
theorem scenario_s3_push_promise_chain :
    ((run (StreamManager.new 4 false) [(true, ⟨3, 0x5, 0x0, 2⟩)]).bind
        (fun sm => observe sm 2) =
      some (StreamStates.Idle, true, false, true)) ∧
    ((run (StreamManager.new 4 false)
        [(true, ⟨3, 0x5, 0x0, 2⟩), (true, ⟨3, 0x9, 0x4, 2⟩)]).bind
        (fun sm => observe sm 2) =
      some (StreamStates.ReservedRemote, false, false, false)) ∧
    ((run (StreamManager.new 4 false)
        [(true, ⟨3, 0x5, 0x0, 2⟩), (true, ⟨3, 0x9, 0x4, 2⟩), (true, ⟨3, 0x1, 0x1, 2⟩)]).bind
        (fun sm => observe sm 2) =
      some (StreamStates.ReservedRemote, true, true, false)) ∧
    ((run (StreamManager.new 4 false)
        [(true, ⟨3, 0x5, 0x0, 2⟩), (true, ⟨3, 0x9, 0x4, 2⟩), (true, ⟨3, 0x1, 0x1, 2⟩),
         (true, ⟨3, 0x9, 0x4, 2⟩)]).bind
        (fun sm => (observe sm 2).map (fun t => t.1)) =
      some StreamStates.Closed) := by decide

lemma handle_frame_valid_fst (sm : StreamManager) (r : Bool) (f : RawFrame)
    (hv : check_valid_frame sm f r = true) (p : Bool × StreamManager)
    (h : handle_frame sm r f = some p) : p.1 = true := by
  unfold handle_frame at h
  rw [if_pos hv] at h
  repeat' split at h
  all_goals
    first
      | (cases h; rfl)
      | (rcases Option.map_eq_some'.mp h with ⟨x, _, heq⟩; cases heq; rfl)

/-- C10: whenever `handle_frame` rejects a frame (returns the `false` verdict),
the manager is returned exactly as it was: the validator `check_valid_frame`
only reads, and the rejection branch returns before any handler runs. -/
theorem rejection_preserves_state (sm sm' : StreamManager) (receiving : Bool)
    (f : RawFrame) (h : handle_frame sm receiving f = some (false, sm')) :
    sm' = sm := by
  by_cases hv : check_valid_frame sm f receiving = true
  · have hfst := handle_frame_valid_fst sm receiving f hv (false, sm') h
    simp at hfst
  · rw [handle_frame_rejected sm receiving f hv] at h
    injection h with h1
    injection h1 with hb hsm
    exact hsm.symm

/-- C10 witness: a CONTINUATION frame on an absent stream of a fresh client
manager is rejected, and the returned manager is the input manager. -/
theorem rejection_preserves_state_witness :
    (StreamManager.new 4 false) = (StreamManager.new 4 false) :=
  rejection_preserves_state (StreamManager.new 4 false) (StreamManager.new 4 false)
    true ⟨3, 0x9, 0x0, 2⟩ (by decide)

/-- C8 counterexample: a frame with the PRIORITY frame-type byte 0x2 addressed
to the existing stream 2 in state `Open` (reached by a received
HEADERS(END_HEADERS) on a fresh client manager) is rejected by `handle_frame`,
so 0x2 is not admissible in every state. -/
theorem priority_frame_counterexample :
    run (StreamManager.new 4 false) [(true, ⟨3, 0x1, 0x4, 2⟩)] =
      some { last_server_id := 2, last_client_id := 0, max_concurrent_streams := 4,
             streams := [(2, ⟨StreamStates.Open, false, false, false⟩)],
             is_server := false } ∧
    handle_frame
        { last_server_id := 2, last_client_id := 0, max_concurrent_streams := 4,
          streams := [(2, ⟨StreamStates.Open, false, false, false⟩)], is_server := false }
        true ⟨3, 0x2, 0x0, 2⟩ =
      some (false,
        { last_server_id := 2, last_client_id := 0, max_concurrent_streams := 4,
          streams := [(2, ⟨StreamStates.Open, false, false, false⟩)],
          is_server := false }) := by decide

/-- C8 amended: the source keys PRIORITY on the byte 0x20 (the PRIORITY flag
bit), not 0x2: a frame with type byte 0x20 addressed to an existing stream that
is not expecting continuation is admitted in every stream state except `Open`
(whose whitelist omits 0x20), in both directions, and `handle_frame` dispatches
it to `handle_priority` (a no-op, so the manager is returned unchanged). -/
theorem priority_frame_amended (sm : StreamManager) (receiving : Bool) (f : RawFrame)
    (st : StreamStatus)
    (hft : f.frame_type = 0x20)
    (hst : sm.get_stream_status f.stream_id = some st)
    (hec : st.expects_continuation = false)
    (hsO : st.state ≠ StreamStates.Open) :
    handle_frame sm receiving f = some (true, handle_priority sm receiving f) := by
  have hcc : check_continue sm f = true := by
    unfold check_continue
    rw [hst]
    simp [hec, hft]
  have hcvf : check_valid_frame sm f receiving = true := by
    simp only [check_valid_frame]
    rw [hst, hft]
    have hred : (if (32 : Nat) = 1 then true
        else if (32 : Nat) = 5 then sm.check_valid_open_request f.stream_id receiving
        else check_continue sm f) = check_continue sm f := by norm_num
    rw [hred, hcc, if_pos rfl]
    cases hstate : st.state <;>
      simp_all [check_state, check_idle, check_open, check_closed, check_reserved_local,
        check_reserved_remote, check_half_closed_local, check_half_closed_remote, hft]
  unfold handle_frame
  rw [if_pos hcvf]
  rw [if_neg (by rw [hft]; decide), if_neg (by rw [hft]; decide), if_pos hft]

/-- C8 amended witness: a 0x20-typed frame on stream 2 held in
`ReservedRemote` is admitted and leaves the manager unchanged. -/
theorem priority_frame_amended_witness :
    handle_frame
        { last_server_id := 2, last_client_id := 0, max_concurrent_streams := 4,
          streams := [(2, ⟨StreamStates.ReservedRemote, false, false, false⟩)],
          is_server := false } true ⟨3, 0x20, 0x0, 2⟩ =
      some (true, handle_priority
        { last_server_id := 2, last_client_id := 0, max_concurrent_streams := 4,
          streams := [(2, ⟨StreamStates.ReservedRemote, false, false, false⟩)],
          is_server := false } true ⟨3, 0x20, 0x0, 2⟩) :=
  priority_frame_amended
    { last_server_id := 2, last_client_id := 0, max_concurrent_streams := 4,
      streams := [(2, ⟨StreamStates.ReservedRemote, false, false, false⟩)],
      is_server := false } true ⟨3, 0x20, 0x0, 2⟩
    ⟨StreamStates.ReservedRemote, false, false, false⟩ rfl rfl rfl (by decide)

lemma alistInsert_absent {α : Type} (l : List (Nat × α)) (k : Nat) (v : α)
    (hk : alistFind l k = none) : alistInsert l k v = l ++ [(k, v)] := by
  induction l with
  | nil => rfl
  | cons hd t ih =>
    obtain ⟨k', v'⟩ := hd
    simp only [alistFind] at hk
    simp only [alistInsert, List.cons_append]
    by_cases h : k' = k
    · rw [if_pos h] at hk; cases hk
    · rw [if_neg h] at hk
      rw [if_neg h, ih hk]

lemma alistFind_append_last {α : Type} (l : List (Nat × α)) (k : Nat) (v : α)
    (hk : alistFind l k = none) : alistFind (l ++ [(k, v)]) k = some v := by
  induction l with
  | nil => simp [alistFind]
  | cons hd t ih =>
    obtain ⟨k', v'⟩ := hd
    simp only [alistFind] at hk
    simp only [List.cons_append, alistFind]
    by_cases h : k' = k
    · rw [if_pos h] at hk; cases hk
    · rw [if_neg h] at hk
      rw [if_neg h]
      exact ih hk

lemma alistModify_append_last {α : Type} (l : List (Nat × α)) (k : Nat) (v : α) (g : α → α)
    (hk : alistFind l k = none) : alistModify (l ++ [(k, v)]) k g = l ++ [(k, g v)] := by
  induction l with
  | nil => simp [alistModify]
  | cons hd t ih =>
    obtain ⟨k', v'⟩ := hd
    simp only [alistFind] at hk
    simp only [List.cons_append, alistModify, List.append_eq]
    by_cases h : k' = k
    · rw [if_pos h] at hk; cases hk
    · rw [if_neg h] at hk
      rw [if_neg h, ih hk]

lemma alistErase_append_last {α : Type} (l : List (Nat × α)) (k : Nat) (v : α)
    (hk : alistFind l k = none) : alistErase (l ++ [(k, v)]) k = l := by
  induction l with
  | nil => simp [alistErase]
  | cons hd t ih =>
    obtain ⟨k', v'⟩ := hd
    simp only [alistFind] at hk
    simp only [List.cons_append, alistErase, List.append_eq]
    by_cases h : k' = k
    · rw [if_pos h] at hk; cases hk
    · rw [if_neg h] at hk
      rw [if_neg h, ih hk]

/-- C9 counterexample: from a fresh `PriorityManager`, `add(1); retire(1)`
leaves the ready queue holding the retired id 1, and the next `get()` panics
(`none`) when it indexes the removed id — whereas `get()` on the pre-state
returns normally with no stream.  The managers are distinguishable. -/
theorem add_retire_counterexample :
    PriorityManager.retire 100 (PriorityManager.new.add 1) 1 =
      some { streams := [], queue := [1] } ∧
    (PriorityManager.retire 100 (PriorityManager.new.add 1) 1).bind
      PriorityManager.get = none ∧
    PriorityManager.new.get = some (none, PriorityManager.new) := by decide

/-- C9 amended: for every manager state and id not already present,
`add(id); retire(id)` restores the streams map exactly — so the parent,
children and depth of every other id are unchanged — but leaves `id` enqueued
in the ready queue, so the manager is distinguishable by a later `get()`,
which panics when it dequeues the stale id. -/
theorem add_retire_amended (pm : PriorityManager) (stream_id fuel : Nat)
    (hid : alistFind pm.streams stream_id = none) (hf : 1 ≤ fuel) :
    PriorityManager.retire fuel (pm.add stream_id) stream_id =
      some { pm with queue := pm.queue ++ [stream_id] } := by
  obtain ⟨f, rfl⟩ : ∃ f, fuel = f + 1 := ⟨fuel - 1, by omega⟩
  have hc : pm.contains stream_id = false := by
    simp [PriorityManager.contains, hid]
  have hadd : pm.add stream_id =
      { streams := pm.streams ++ [(stream_id, StreamPriority.new)],
        queue := pm.queue ++ [stream_id] } := by
    simp [PriorityManager.add, hc, StreamPriority.new, alistInsert_absent,
      alistFind_append_last, hid]
  rw [hadd]
  simp [PriorityManager.retire, PriorityManager.contains, update_tree_depths,
    update_tree_depths_work, retireChildren, StreamPriority.new,
    alistFind_append_last, alistModify_append_last, alistErase_append_last, hid]

/-- C9 amended witness: on a manager already holding stream 2, `add(1);
retire(1)` restores the streams map and leaves 1 queued behind 2. -/
theorem add_retire_amended_witness :
    PriorityManager.retire 5 ((PriorityManager.new.add 2).add 1) 1 =
      some { PriorityManager.new.add 2 with
             queue := (PriorityManager.new.add 2).queue ++ [1] } :=
  add_retire_amended (PriorityManager.new.add 2) 1 5 (by decide) (by decide)

/-- C6: the forest contract fails.  After `cyclePrefix`, node 3 carries the
corrupted depth 3 (its parent is 2, at depth 1), so `set_dependant(2, 3)`'s
ancestor walk from 3 goes two steps (to 2, then to 2's parent 0), misses the
true ancestor 2, and `connect(2, 3)` installs the parent cycle 2 → 3 → 2;
`update_tree_depths` then recurses around that cycle until the fuel (the
source's call stack) is exhausted, so `set_dependant(2, 3)` never returns
normally. -/
theorem set_dependant_creates_cycle :
    (cyclePrefix.map (fun pm =>
        ((alistFind pm.streams 3).map StreamPriority.depth,
         (alistFind pm.streams 3).map StreamPriority.parent,
         (alistFind pm.streams 2).map StreamPriority.depth)) =
      some (some 3, some 2, some 1)) ∧
    ((cyclePrefix.bind (fun pm => pm.connect 2 3)).map (fun pm =>
        ((alistFind pm.streams 2).map StreamPriority.parent,
         (alistFind pm.streams 3).map StreamPriority.parent)) =
      some (some 3, some 2)) ∧
    cyclePrefix.bind (fun pm => PriorityManager.set_dependant 200 pm 2 3) = none := by
  decide
